import Mathlib

/-!
# A verification of the `bcrypt-only` crate

This file embeds the core of the `bcrypt-only` Rust crate (file `src/lib.rs`)
as executable Lean definitions and proves the properties stated in its design
specification.  Machine integers (`u8`, `u32`) are modelled as `Nat` with
explicit reduction modulo `2^32` wherever the Rust code wraps; byte and word
arrays are modelled as lists of `Nat`, indexed with a total read operation
(out-of-range reads return 0, and the safety theorem shows every index the
program takes is in range).
-/

namespace BcryptOnly

/-- `2^32`, the modulus of `u32` arithmetic. -/
def W32 : Nat := 4294967296

/-- Wrapping 32-bit addition (`u32::wrapping_add`). -/
def add32 (a b : Nat) : Nat := (a + b) % W32

/-- Array read `l[i]` for a byte or word array modelled as a list. -/
def nthW (l : List Nat) (i : Nat) : Nat := l.getD i 0

/-- S-box read `s[i][k]` for the table `s : [[u32; 256]; 4]`. -/
def nthS (s : List (List Nat)) (i k : Nat) : Nat := (s.getD i []).getD k 0

/-- S-box write `s[i][k] = v`. -/
def setS (s : List (List Nat)) (i k v : Nat) : List (List Nat) :=
  s.set i ((s.getD i []).set k v)

/-- `foldRange f n a` applies `f 0`, then `f 1`, …, then `f (n-1)` to `a`:
the common shape of the crate's `for i in 0..n` loops.  (Defined by raw
`Nat.rec` so that it satisfies `foldRange f 0 a = a` and
`foldRange f (n+1) a = f n (foldRange f n a)` definitionally.) -/
def foldRange (f : Nat → α → α) (n : Nat) (a : α) : α :=
  Nat.rec (motive := fun _ => α) a (fun k ih => f k ih) n

/-- The maximum number of bytes in a bcrypt key (`KEY_SIZE_MAX`). -/
def KEY_SIZE_MAX : Nat := 72

/-- The number of bytes in a bcrypt salt (`SALT_SIZE`). -/
def SALT_SIZE : Nat := 16

/-- The number of bytes in a bcrypt hash (`HASH_SIZE`). -/
def HASH_SIZE : Nat := 23

/-- A bcrypt work factor (`WorkFactor`): a newtype over `u32`. -/
structure WorkFactor where
  val : Nat
deriving Repr, DecidableEq

/-- `WorkFactor::exp`: accepts a base-2 exponent between 4 and 31 inclusive. -/
def WorkFactor.exp (log_rounds : Nat) : Option WorkFactor :=
  if 4 ≤ log_rounds ∧ log_rounds ≤ 31 then some ⟨log_rounds⟩ else none

/-- `WorkFactor::log_rounds`. -/
def WorkFactor.log_rounds (w : WorkFactor) : Nat := w.val

/-- `WorkFactor::linear_rounds`: `1 << self.0` as a `u32` value. -/
def WorkFactor.linear_rounds (w : WorkFactor) : Nat := (1 <<< w.val) % W32

/-- A bcrypt hashing error (`BcryptError`). -/
inductive BcryptError where
  /-- The key was longer than the limit of 72 bytes. -/
  | Length : BcryptError
  /-- The key contained a 0 byte. -/
  | ZeroByte : BcryptError
deriving Repr, DecidableEq

/-- `u32::from_be_bytes` on four byte values. -/
def u32_from_be_bytes (b0 b1 b2 b3 : Nat) : Nat :=
  b0 <<< 24 ||| b1 <<< 16 ||| b2 <<< 8 ||| b3

/-- `u32::to_be_bytes`: the four big-endian bytes of a 32-bit word. -/
def u32_to_be_bytes (w : Nat) : List Nat :=
  [(w >>> 24) % 256, (w >>> 16) % 256, (w >>> 8) % 256, w % 256]

/-- A bcrypt salt (`Salt`): 16 bytes held as four big-endian 32-bit words
(field `be: [u32; 4]`). -/
structure Salt where
  be : List Nat
deriving Repr, DecidableEq

/-- `Salt::from_bytes`: big-endian packing of 16 bytes into four words. -/
def Salt.from_bytes (bytes : List Nat) : Salt :=
  ⟨foldRange (fun i be => be.set i
      (u32_from_be_bytes (nthW bytes (4 * i)) (nthW bytes (4 * i + 1))
        (nthW bytes (4 * i + 2)) (nthW bytes (4 * i + 3)))) 4 [0, 0, 0, 0]⟩

/-- `Salt::to_bytes`: big-endian serialisation of the four salt words. -/
def Salt.to_bytes (s : Salt) : List Nat :=
  u32_to_be_bytes (nthW s.be 0) ++ u32_to_be_bytes (nthW s.be 1) ++
    u32_to_be_bytes (nthW s.be 2) ++ u32_to_be_bytes (nthW s.be 3)

/-- `BLF_N`: the number of Blowfish rounds. -/
def BLF_N : Nat := 16

/-- The Blowfish cipher state (`BlowfishContext`): the four 256-word
S-boxes and the 18-word subkey array `P`. -/
structure BlowfishContext where
  s : List (List Nat)
  p : List Nat
deriving Repr, DecidableEq

/-- The canonical initial P-array, from `BLOWFISH_INITIAL` in `src/lib.rs`:
the first 18 words of the fractional part of π in hexadecimal. -/
def P_INITIAL : List Nat :=
  [0x243f6a88, 0x85a308d3, 0x13198a2e, 0x03707344,
   0xa4093822, 0x299f31d0, 0x082efa98, 0xec4e6c89,
   0x452821e6, 0x38d01377, 0xbe5466cf, 0x34e90c6c,
   0xc0ac29b7, 0xc97c50dd, 0x3f84d5b5, 0xb5470917,
   0x9216d5d9, 0x8979fb1b]

/-- Modelled from the spec: the crate's initial S-box table is provided by
the file `sbox-init.in`, which is not part of the sources available here;
the specification describes it as the canonical initial S-box tables
"derived from the fractional bits of π".  These are the 1024 32-bit words
of π's hexadecimal fraction that follow the 18 P-array words above. -/
def S_INITIAL : List (List Nat) :=
  [[0xd1310ba6, 0x98dfb5ac, 0x2ffd72db, 0xd01adfb7, 0xb8e1afed, 0x6a267e96, 0xba7c9045, 0xf12c7f99,
    0x24a19947, 0xb3916cf7, 0x0801f2e2, 0x858efc16, 0x636920d8, 0x71574e69, 0xa458fea3, 0xf4933d7e,
    0x0d95748f, 0x728eb658, 0x718bcd58, 0x82154aee, 0x7b54a41d, 0xc25a59b5, 0x9c30d539, 0x2af26013,
    0xc5d1b023, 0x286085f0, 0xca417918, 0xb8db38ef, 0x8e79dcb0, 0x603a180e, 0x6c9e0e8b, 0xb01e8a3e,
    0xd71577c1, 0xbd314b27, 0x78af2fda, 0x55605c60, 0xe65525f3, 0xaa55ab94, 0x57489862, 0x63e81440,
    0x55ca396a, 0x2aab10b6, 0xb4cc5c34, 0x1141e8ce, 0xa15486af, 0x7c72e993, 0xb3ee1411, 0x636fbc2a,
    0x2ba9c55d, 0x741831f6, 0xce5c3e16, 0x9b87931e, 0xafd6ba33, 0x6c24cf5c, 0x7a325381, 0x28958677,
    0x3b8f4898, 0x6b4bb9af, 0xc4bfe81b, 0x66282193, 0x61d809cc, 0xfb21a991, 0x487cac60, 0x5dec8032,
    0xef845d5d, 0xe98575b1, 0xdc262302, 0xeb651b88, 0x23893e81, 0xd396acc5, 0x0f6d6ff3, 0x83f44239,
    0x2e0b4482, 0xa4842004, 0x69c8f04a, 0x9e1f9b5e, 0x21c66842, 0xf6e96c9a, 0x670c9c61, 0xabd388f0,
    0x6a51a0d2, 0xd8542f68, 0x960fa728, 0xab5133a3, 0x6eef0b6c, 0x137a3be4, 0xba3bf050, 0x7efb2a98,
    0xa1f1651d, 0x39af0176, 0x66ca593e, 0x82430e88, 0x8cee8619, 0x456f9fb4, 0x7d84a5c3, 0x3b8b5ebe,
    0xe06f75d8, 0x85c12073, 0x401a449f, 0x56c16aa6, 0x4ed3aa62, 0x363f7706, 0x1bfedf72, 0x429b023d,
    0x37d0d724, 0xd00a1248, 0xdb0fead3, 0x49f1c09b, 0x075372c9, 0x80991b7b, 0x25d479d8, 0xf6e8def7,
    0xe3fe501a, 0xb6794c3b, 0x976ce0bd, 0x04c006ba, 0xc1a94fb6, 0x409f60c4, 0x5e5c9ec2, 0x196a2463,
    0x68fb6faf, 0x3e6c53b5, 0x1339b2eb, 0x3b52ec6f, 0x6dfc511f, 0x9b30952c, 0xcc814544, 0xaf5ebd09,
    0xbee3d004, 0xde334afd, 0x660f2807, 0x192e4bb3, 0xc0cba857, 0x45c8740f, 0xd20b5f39, 0xb9d3fbdb,
    0x5579c0bd, 0x1a60320a, 0xd6a100c6, 0x402c7279, 0x679f25fe, 0xfb1fa3cc, 0x8ea5e9f8, 0xdb3222f8,
    0x3c7516df, 0xfd616b15, 0x2f501ec8, 0xad0552ab, 0x323db5fa, 0xfd238760, 0x53317b48, 0x3e00df82,
    0x9e5c57bb, 0xca6f8ca0, 0x1a87562e, 0xdf1769db, 0xd542a8f6, 0x287effc3, 0xac6732c6, 0x8c4f5573,
    0x695b27b0, 0xbbca58c8, 0xe1ffa35d, 0xb8f011a0, 0x10fa3d98, 0xfd2183b8, 0x4afcb56c, 0x2dd1d35b,
    0x9a53e479, 0xb6f84565, 0xd28e49bc, 0x4bfb9790, 0xe1ddf2da, 0xa4cb7e33, 0x62fb1341, 0xcee4c6e8,
    0xef20cada, 0x36774c01, 0xd07e9efe, 0x2bf11fb4, 0x95dbda4d, 0xae909198, 0xeaad8e71, 0x6b93d5a0,
    0xd08ed1d0, 0xafc725e0, 0x8e3c5b2f, 0x8e7594b7, 0x8ff6e2fb, 0xf2122b64, 0x8888b812, 0x900df01c,
    0x4fad5ea0, 0x688fc31c, 0xd1cff191, 0xb3a8c1ad, 0x2f2f2218, 0xbe0e1777, 0xea752dfe, 0x8b021fa1,
    0xe5a0cc0f, 0xb56f74e8, 0x18acf3d6, 0xce89e299, 0xb4a84fe0, 0xfd13e0b7, 0x7cc43b81, 0xd2ada8d9,
    0x165fa266, 0x80957705, 0x93cc7314, 0x211a1477, 0xe6ad2065, 0x77b5fa86, 0xc75442f5, 0xfb9d35cf,
    0xebcdaf0c, 0x7b3e89a0, 0xd6411bd3, 0xae1e7e49, 0x00250e2d, 0x2071b35e, 0x226800bb, 0x57b8e0af,
    0x2464369b, 0xf009b91e, 0x5563911d, 0x59dfa6aa, 0x78c14389, 0xd95a537f, 0x207d5ba2, 0x02e5b9c5,
    0x83260376, 0x6295cfa9, 0x11c81968, 0x4e734a41, 0xb3472dca, 0x7b14a94a, 0x1b510052, 0x9a532915,
    0xd60f573f, 0xbc9bc6e4, 0x2b60a476, 0x81e67400, 0x08ba6fb5, 0x571be91f, 0xf296ec6b, 0x2a0dd915,
    0xb6636521, 0xe7b9f9b6, 0xff34052e, 0xc5855664, 0x53b02d5d, 0xa99f8fa1, 0x08ba4799, 0x6e85076a],
   [0x4b7a70e9, 0xb5b32944, 0xdb75092e, 0xc4192623, 0xad6ea6b0, 0x49a7df7d, 0x9cee60b8, 0x8fedb266,
    0xecaa8c71, 0x699a17ff, 0x5664526c, 0xc2b19ee1, 0x193602a5, 0x75094c29, 0xa0591340, 0xe4183a3e,
    0x3f54989a, 0x5b429d65, 0x6b8fe4d6, 0x99f73fd6, 0xa1d29c07, 0xefe830f5, 0x4d2d38e6, 0xf0255dc1,
    0x4cdd2086, 0x8470eb26, 0x6382e9c6, 0x021ecc5e, 0x09686b3f, 0x3ebaefc9, 0x3c971814, 0x6b6a70a1,
    0x687f3584, 0x52a0e286, 0xb79c5305, 0xaa500737, 0x3e07841c, 0x7fdeae5c, 0x8e7d44ec, 0x5716f2b8,
    0xb03ada37, 0xf0500c0d, 0xf01c1f04, 0x0200b3ff, 0xae0cf51a, 0x3cb574b2, 0x25837a58, 0xdc0921bd,
    0xd19113f9, 0x7ca92ff6, 0x94324773, 0x22f54701, 0x3ae5e581, 0x37c2dadc, 0xc8b57634, 0x9af3dda7,
    0xa9446146, 0x0fd0030e, 0xecc8c73e, 0xa4751e41, 0xe238cd99, 0x3bea0e2f, 0x3280bba1, 0x183eb331,
    0x4e548b38, 0x4f6db908, 0x6f420d03, 0xf60a04bf, 0x2cb81290, 0x24977c79, 0x5679b072, 0xbcaf89af,
    0xde9a771f, 0xd9930810, 0xb38bae12, 0xdccf3f2e, 0x5512721f, 0x2e6b7124, 0x501adde6, 0x9f84cd87,
    0x7a584718, 0x7408da17, 0xbc9f9abc, 0xe94b7d8c, 0xec7aec3a, 0xdb851dfa, 0x63094366, 0xc464c3d2,
    0xef1c1847, 0x3215d908, 0xdd433b37, 0x24c2ba16, 0x12a14d43, 0x2a65c451, 0x50940002, 0x133ae4dd,
    0x71dff89e, 0x10314e55, 0x81ac77d6, 0x5f11199b, 0x043556f1, 0xd7a3c76b, 0x3c11183b, 0x5924a509,
    0xf28fe6ed, 0x97f1fbfa, 0x9ebabf2c, 0x1e153c6e, 0x86e34570, 0xeae96fb1, 0x860e5e0a, 0x5a3e2ab3,
    0x771fe71c, 0x4e3d06fa, 0x2965dcb9, 0x99e71d0f, 0x803e89d6, 0x5266c825, 0x2e4cc978, 0x9c10b36a,
    0xc6150eba, 0x94e2ea78, 0xa5fc3c53, 0x1e0a2df4, 0xf2f74ea7, 0x361d2b3d, 0x1939260f, 0x19c27960,
    0x5223a708, 0xf71312b6, 0xebadfe6e, 0xeac31f66, 0xe3bc4595, 0xa67bc883, 0xb17f37d1, 0x018cff28,
    0xc332ddef, 0xbe6c5aa5, 0x65582185, 0x68ab9802, 0xeecea50f, 0xdb2f953b, 0x2aef7dad, 0x5b6e2f84,
    0x1521b628, 0x29076170, 0xecdd4775, 0x619f1510, 0x13cca830, 0xeb61bd96, 0x0334fe1e, 0xaa0363cf,
    0xb5735c90, 0x4c70a239, 0xd59e9e0b, 0xcbaade14, 0xeecc86bc, 0x60622ca7, 0x9cab5cab, 0xb2f3846e,
    0x648b1eaf, 0x19bdf0ca, 0xa02369b9, 0x655abb50, 0x40685a32, 0x3c2ab4b3, 0x319ee9d5, 0xc021b8f7,
    0x9b540b19, 0x875fa099, 0x95f7997e, 0x623d7da8, 0xf837889a, 0x97e32d77, 0x11ed935f, 0x16681281,
    0x0e358829, 0xc7e61fd6, 0x96dedfa1, 0x7858ba99, 0x57f584a5, 0x1b227263, 0x9b83c3ff, 0x1ac24696,
    0xcdb30aeb, 0x532e3054, 0x8fd948e4, 0x6dbc3128, 0x58ebf2ef, 0x34c6ffea, 0xfe28ed61, 0xee7c3c73,
    0x5d4a14d9, 0xe864b7e3, 0x42105d14, 0x203e13e0, 0x45eee2b6, 0xa3aaabea, 0xdb6c4f15, 0xfacb4fd0,
    0xc742f442, 0xef6abbb5, 0x654f3b1d, 0x41cd2105, 0xd81e799e, 0x86854dc7, 0xe44b476a, 0x3d816250,
    0xcf62a1f2, 0x5b8d2646, 0xfc8883a0, 0xc1c7b6a3, 0x7f1524c3, 0x69cb7492, 0x47848a0b, 0x5692b285,
    0x095bbf00, 0xad19489d, 0x1462b174, 0x23820e00, 0x58428d2a, 0x0c55f5ea, 0x1dadf43e, 0x233f7061,
    0x3372f092, 0x8d937e41, 0xd65fecf1, 0x6c223bdb, 0x7cde3759, 0xcbee7460, 0x4085f2a7, 0xce77326e,
    0xa6078084, 0x19f8509e, 0xe8efd855, 0x61d99735, 0xa969a7aa, 0xc50c06c2, 0x5a04abfc, 0x800bcadc,
    0x9e447a2e, 0xc3453484, 0xfdd56705, 0x0e1e9ec9, 0xdb73dbd3, 0x105588cd, 0x675fda79, 0xe3674340,
    0xc5c43465, 0x713e38d8, 0x3d28f89e, 0xf16dff20, 0x153e21e7, 0x8fb03d4a, 0xe6e39f2b, 0xdb83adf7],
   [0xe93d5a68, 0x948140f7, 0xf64c261c, 0x94692934, 0x411520f7, 0x7602d4f7, 0xbcf46b2e, 0xd4a20068,
    0xd4082471, 0x3320f46a, 0x43b7d4b7, 0x500061af, 0x1e39f62e, 0x97244546, 0x14214f74, 0xbf8b8840,
    0x4d95fc1d, 0x96b591af, 0x70f4ddd3, 0x66a02f45, 0xbfbc09ec, 0x03bd9785, 0x7fac6dd0, 0x31cb8504,
    0x96eb27b3, 0x55fd3941, 0xda2547e6, 0xabca0a9a, 0x28507825, 0x530429f4, 0x0a2c86da, 0xe9b66dfb,
    0x68dc1462, 0xd7486900, 0x680ec0a4, 0x27a18dee, 0x4f3ffea2, 0xe887ad8c, 0xb58ce006, 0x7af4d6b6,
    0xaace1e7c, 0xd3375fec, 0xce78a399, 0x406b2a42, 0x20fe9e35, 0xd9f385b9, 0xee39d7ab, 0x3b124e8b,
    0x1dc9faf7, 0x4b6d1856, 0x26a36631, 0xeae397b2, 0x3a6efa74, 0xdd5b4332, 0x6841e7f7, 0xca7820fb,
    0xfb0af54e, 0xd8feb397, 0x454056ac, 0xba489527, 0x55533a3a, 0x20838d87, 0xfe6ba9b7, 0xd096954b,
    0x55a867bc, 0xa1159a58, 0xcca92963, 0x99e1db33, 0xa62a4a56, 0x3f3125f9, 0x5ef47e1c, 0x9029317c,
    0xfdf8e802, 0x04272f70, 0x80bb155c, 0x05282ce3, 0x95c11548, 0xe4c66d22, 0x48c1133f, 0xc70f86dc,
    0x07f9c9ee, 0x41041f0f, 0x404779a4, 0x5d886e17, 0x325f51eb, 0xd59bc0d1, 0xf2bcc18f, 0x41113564,
    0x257b7834, 0x602a9c60, 0xdff8e8a3, 0x1f636c1b, 0x0e12b4c2, 0x02e1329e, 0xaf664fd1, 0xcad18115,
    0x6b2395e0, 0x333e92e1, 0x3b240b62, 0xeebeb922, 0x85b2a20e, 0xe6ba0d99, 0xde720c8c, 0x2da2f728,
    0xd0127845, 0x95b794fd, 0x647d0862, 0xe7ccf5f0, 0x5449a36f, 0x877d48fa, 0xc39dfd27, 0xf33e8d1e,
    0x0a476341, 0x992eff74, 0x3a6f6eab, 0xf4f8fd37, 0xa812dc60, 0xa1ebddf8, 0x991be14c, 0xdb6e6b0d,
    0xc67b5510, 0x6d672c37, 0x2765d43b, 0xdcd0e804, 0xf1290dc7, 0xcc00ffa3, 0xb5390f92, 0x690fed0b,
    0x667b9ffb, 0xcedb7d9c, 0xa091cf0b, 0xd9155ea3, 0xbb132f88, 0x515bad24, 0x7b9479bf, 0x763bd6eb,
    0x37392eb3, 0xcc115979, 0x8026e297, 0xf42e312d, 0x6842ada7, 0xc66a2b3b, 0x12754ccc, 0x782ef11c,
    0x6a124237, 0xb79251e7, 0x06a1bbe6, 0x4bfb6350, 0x1a6b1018, 0x11caedfa, 0x3d25bdd8, 0xe2e1c3c9,
    0x44421659, 0x0a121386, 0xd90cec6e, 0xd5abea2a, 0x64af674e, 0xda86a85f, 0xbebfe988, 0x64e4c3fe,
    0x9dbc8057, 0xf0f7c086, 0x60787bf8, 0x6003604d, 0xd1fd8346, 0xf6381fb0, 0x7745ae04, 0xd736fccc,
    0x83426b33, 0xf01eab71, 0xb0804187, 0x3c005e5f, 0x77a057be, 0xbde8ae24, 0x55464299, 0xbf582e61,
    0x4e58f48f, 0xf2ddfda2, 0xf474ef38, 0x8789bdc2, 0x5366f9c3, 0xc8b38e74, 0xb475f255, 0x46fcd9b9,
    0x7aeb2661, 0x8b1ddf84, 0x846a0e79, 0x915f95e2, 0x466e598e, 0x20b45770, 0x8cd55591, 0xc902de4c,
    0xb90bace1, 0xbb8205d0, 0x11a86248, 0x7574a99e, 0xb77f19b6, 0xe0a9dc09, 0x662d09a1, 0xc4324633,
    0xe85a1f02, 0x09f0be8c, 0x4a99a025, 0x1d6efe10, 0x1ab93d1d, 0x0ba5a4df, 0xa186f20f, 0x2868f169,
    0xdcb7da83, 0x573906fe, 0xa1e2ce9b, 0x4fcd7f52, 0x50115e01, 0xa70683fa, 0xa002b5c4, 0x0de6d027,
    0x9af88c27, 0x773f8641, 0xc3604c06, 0x61a806b5, 0xf0177a28, 0xc0f586e0, 0x006058aa, 0x30dc7d62,
    0x11e69ed7, 0x2338ea63, 0x53c2dd94, 0xc2c21634, 0xbbcbee56, 0x90bcb6de, 0xebfc7da1, 0xce591d76,
    0x6f05e409, 0x4b7c0188, 0x39720a3d, 0x7c927c24, 0x86e3725f, 0x724d9db9, 0x1ac15bb4, 0xd39eb8fc,
    0xed545578, 0x08fca5b5, 0xd83d7cd3, 0x4dad0fc4, 0x1e50ef5e, 0xb161e6f8, 0xa28514d9, 0x6c51133c,
    0x6fd5c7e7, 0x56e14ec4, 0x362abfce, 0xddc6c837, 0xd79a3234, 0x92638212, 0x670efa8e, 0x406000e0],
   [0x3a39ce37, 0xd3faf5cf, 0xabc27737, 0x5ac52d1b, 0x5cb0679e, 0x4fa33742, 0xd3822740, 0x99bc9bbe,
    0xd5118e9d, 0xbf0f7315, 0xd62d1c7e, 0xc700c47b, 0xb78c1b6b, 0x21a19045, 0xb26eb1be, 0x6a366eb4,
    0x5748ab2f, 0xbc946e79, 0xc6a376d2, 0x6549c2c8, 0x530ff8ee, 0x468dde7d, 0xd5730a1d, 0x4cd04dc6,
    0x2939bbdb, 0xa9ba4650, 0xac9526e8, 0xbe5ee304, 0xa1fad5f0, 0x6a2d519a, 0x63ef8ce2, 0x9a86ee22,
    0xc089c2b8, 0x43242ef6, 0xa51e03aa, 0x9cf2d0a4, 0x83c061ba, 0x9be96a4d, 0x8fe51550, 0xba645bd6,
    0x2826a2f9, 0xa73a3ae1, 0x4ba99586, 0xef5562e9, 0xc72fefd3, 0xf752f7da, 0x3f046f69, 0x77fa0a59,
    0x80e4a915, 0x87b08601, 0x9b09e6ad, 0x3b3ee593, 0xe990fd5a, 0x9e34d797, 0x2cf0b7d9, 0x022b8b51,
    0x96d5ac3a, 0x017da67d, 0xd1cf3ed6, 0x7c7d2d28, 0x1f9f25cf, 0xadf2b89b, 0x5ad6b472, 0x5a88f54c,
    0xe029ac71, 0xe019a5e6, 0x47b0acfd, 0xed93fa9b, 0xe8d3c48d, 0x283b57cc, 0xf8d56629, 0x79132e28,
    0x785f0191, 0xed756055, 0xf7960e44, 0xe3d35e8c, 0x15056dd4, 0x88f46dba, 0x03a16125, 0x0564f0bd,
    0xc3eb9e15, 0x3c9057a2, 0x97271aec, 0xa93a072a, 0x1b3f6d9b, 0x1e6321f5, 0xf59c66fb, 0x26dcf319,
    0x7533d928, 0xb155fdf5, 0x03563482, 0x8aba3cbb, 0x28517711, 0xc20ad9f8, 0xabcc5167, 0xccad925f,
    0x4de81751, 0x3830dc8e, 0x379d5862, 0x9320f991, 0xea7a90c2, 0xfb3e7bce, 0x5121ce64, 0x774fbe32,
    0xa8b6e37e, 0xc3293d46, 0x48de5369, 0x6413e680, 0xa2ae0810, 0xdd6db224, 0x69852dfd, 0x09072166,
    0xb39a460a, 0x6445c0dd, 0x586cdecf, 0x1c20c8ae, 0x5bbef7dd, 0x1b588d40, 0xccd2017f, 0x6bb4e3bb,
    0xdda26a7e, 0x3a59ff45, 0x3e350a44, 0xbcb4cdd5, 0x72eacea8, 0xfa6484bb, 0x8d6612ae, 0xbf3c6f47,
    0xd29be463, 0x542f5d9e, 0xaec2771b, 0xf64e6370, 0x740e0d8d, 0xe75b1357, 0xf8721671, 0xaf537d5d,
    0x4040cb08, 0x4eb4e2cc, 0x34d2466a, 0x0115af84, 0xe1b00428, 0x95983a1d, 0x06b89fb4, 0xce6ea048,
    0x6f3f3b82, 0x3520ab82, 0x011a1d4b, 0x277227f8, 0x611560b1, 0xe7933fdc, 0xbb3a792b, 0x344525bd,
    0xa08839e1, 0x51ce794b, 0x2f32c9b7, 0xa01fbac9, 0xe01cc87e, 0xbcc7d1f6, 0xcf0111c3, 0xa1e8aac7,
    0x1a908749, 0xd44fbd9a, 0xd0dadecb, 0xd50ada38, 0x0339c32a, 0xc6913667, 0x8df9317c, 0xe0b12b4f,
    0xf79e59b7, 0x43f5bb3a, 0xf2d519ff, 0x27d9459c, 0xbf97222c, 0x15e6fc2a, 0x0f91fc71, 0x9b941525,
    0xfae59361, 0xceb69ceb, 0xc2a86459, 0x12baa8d1, 0xb6c1075e, 0xe3056a0c, 0x10d25065, 0xcb03a442,
    0xe0ec6e0e, 0x1698db3b, 0x4c98a0be, 0x3278e964, 0x9f1f9532, 0xe0d392df, 0xd3a0342b, 0x8971f21e,
    0x1b0a7441, 0x4ba3348c, 0xc5be7120, 0xc37632d8, 0xdf359f8d, 0x9b992f2e, 0xe60b6f47, 0x0fe3f11d,
    0xe54cda54, 0x1edad891, 0xce6279cf, 0xcd3e7e6f, 0x1618b166, 0xfd2c1d05, 0x848fd2c5, 0xf6fb2299,
    0xf523f357, 0xa6327623, 0x93a83531, 0x56cccd02, 0xacf08162, 0x5a75ebb5, 0x6e163697, 0x88d273cc,
    0xde966292, 0x81b949d0, 0x4c50901b, 0x71c65614, 0xe6c6c7bd, 0x327a140a, 0x45e1d006, 0xc3f27b9a,
    0xc9aa53fd, 0x62a80f00, 0xbb25bfe2, 0x35bdd2f6, 0x71126905, 0xb2040222, 0xb6cbcf7c, 0xcd769c2b,
    0x53113ec0, 0x1640e3d3, 0x38abbd60, 0x2547adf0, 0xba38209c, 0xf746ce76, 0x77afa1c5, 0x20756060,
    0x85cbfe4e, 0x8ae88dd8, 0x7aaaf9b0, 0x4cf9aa7e, 0x1948c25c, 0x02fb8a8c, 0x01c36ae4, 0xd6ebe1f9,
    0x90d4f869, 0xa65cdea0, 0x3f09252d, 0xc208e69f, 0xb74e6132, 0xce77e25b, 0x578fdfe3, 0x3ac372e6]]

/-- `BLOWFISH_INITIAL`: the canonical initial Blowfish state. -/
def BLOWFISH_INITIAL : BlowfishContext := ⟨S_INITIAL, P_INITIAL⟩

/-- `BCRYPT_MESSAGE`: the six big-endian 32-bit words of the 24 ASCII bytes
of `"OrpheanBeholderScryDoubt"` (`0x4f 0x72 0x70 0x68` = `"Orph"`, …). -/
def BCRYPT_MESSAGE : List Nat :=
  [u32_from_be_bytes 0x4f 0x72 0x70 0x68,
   u32_from_be_bytes 0x65 0x61 0x6e 0x42,
   u32_from_be_bytes 0x65 0x68 0x6f 0x6c,
   u32_from_be_bytes 0x64 0x65 0x72 0x53,
   u32_from_be_bytes 0x63 0x72 0x79 0x44,
   u32_from_be_bytes 0x6f 0x75 0x62 0x74]

/-- The Blowfish round function `f`: split `x` into its four big-endian
bytes and combine four S-box entries with wrapping addition and XOR. -/
def f (c : BlowfishContext) (x : Nat) : Nat :=
  let b0 := (x >>> 24) % 256
  let b1 := (x >>> 16) % 256
  let b2 := (x >>> 8) % 256
  let b3 := x % 256
  let h := add32 (nthS c.s 0 b0) (nthS c.s 1 b1)
  add32 (h ^^^ nthS c.s 2 b2) (nthS c.s 3 b3)

/-- One double-round of `blowfish_encipher`'s loop, at loop index `i = 2*j`:
`l ^= p[i]; r ^= f(l); r ^= p[i+1]; l ^= f(r)`. -/
def encipherRound (c : BlowfishContext) (j : Nat) (lr : Nat × Nat) : Nat × Nat :=
  let l := lr.1 ^^^ nthW c.p (2 * j)
  let r := lr.2 ^^^ f c l
  let r := r ^^^ nthW c.p (2 * j + 1)
  let l := l ^^^ f c r
  (l, r)

/-- `blowfish_encipher`: 16 Feistel rounds (8 double-rounds), the final
XORs with `p[16]` and `p[17]`, and the swap of the returned pair. -/
def blowfish_encipher (c : BlowfishContext) (l r : Nat) : Nat × Nat :=
  let lr := foldRange (encipherRound c) 8 (l, r)
  (lr.2 ^^^ nthW c.p 17, lr.1 ^^^ nthW c.p 16)

/-- `KeyCycle`: an iterator yielding the bytes of a key, then 0, forever. -/
structure KeyCycle where
  key : List Nat
  index : Nat
deriving Repr, DecidableEq

/-- `KeyCycle::next` (an `Iterator` implementation, hence the `Option`
result; it never actually returns `none`, see the safety theorem). -/
def KeyCycle.next (kc : KeyCycle) : Option Nat × KeyCycle :=
  if kc.index = kc.key.length then (some 0, ⟨kc.key, 0⟩)
  else (some (nthW kc.key kc.index), ⟨kc.key, kc.index + 1⟩)

/-- `KeyCycle::next().unwrap()`: the value and successor state of the
cycler.  The `none` arm models the `unwrap` panic with a junk value; it is
unreachable because `KeyCycle.next` always returns `some` (safety theorem). -/
def nextUnwrap (kc : KeyCycle) : Nat × KeyCycle :=
  match kc.next with
  | (some b, kc') => (b, kc')
  | (none, kc') => (0, kc')

/-- `read_u32_be`: pull four bytes from the cycler (each via
`next().unwrap()`) and assemble them as a big-endian 32-bit word. -/
def read_u32_be (kc : KeyCycle) : Nat × KeyCycle :=
  let (b0, kc) := nextUnwrap kc
  let (b1, kc) := nextUnwrap kc
  let (b2, kc) := nextUnwrap kc
  let (b3, kc) := nextUnwrap kc
  (b0 <<< 24 ||| b1 <<< 16 ||| b2 <<< 8 ||| b3, kc)

/-- The `Option`-strict reading of `read_u32_be`, in which an `unwrap` of
`none` aborts (propagates `none`) instead of yielding a junk value.  Used
to state that the four `unwrap`s never panic. -/
def read_u32_be_checked (kc : KeyCycle) : Option (Nat × KeyCycle) := do
  let (o0, kc) := kc.next
  let b0 ← o0
  let (o1, kc) := kc.next
  let b1 ← o1
  let (o2, kc) := kc.next
  let b2 ← o2
  let (o3, kc) := kc.next
  let b3 ← o3
  some (b0 <<< 24 ||| b1 <<< 16 ||| b2 <<< 8 ||| b3, kc)

/-- One step of `blowfish_expandstate_key`'s loop: read a word from the
cycler and XOR it into `p[i]` (`*pi ^= read_u32_be(&mut key_cycle)`). -/
def expandKeyStep (i : Nat) (st : List Nat × KeyCycle) : List Nat × KeyCycle :=
  let (temp, kc) := read_u32_be st.2
  (st.1.set i (nthW st.1 i ^^^ temp), kc)

/-- `blowfish_expandstate_key`: XOR one cycled key word into each of the 18
P-words in order (`for pi in &mut c.p { *pi ^= read_u32_be(...) }`);
the single `KeyCycle` is threaded through all 18 reads. -/
def blowfish_expandstate_key (c : BlowfishContext) (key : List Nat) : BlowfishContext :=
  let st := foldRange expandKeyStep 18 (c.p, ⟨key, 0⟩)
  { c with p := st.1 }

/-- One step of `blowfish_expandstate_data`'s P-array loop, at loop index
`i = 2*j`: XOR `data[i % 4]` and `data[i % 4 + 1]` into the running words,
encipher, store the results in `p[i]` and `p[i+1]`. -/
def dataPStep (data : List Nat) (j : Nat) (st : BlowfishContext × Nat × Nat) :
    BlowfishContext × Nat × Nat :=
  let (c, datal, datar) := st
  let i := 2 * j
  let datal := datal ^^^ nthW data (i % 4)
  let datar := datar ^^^ nthW data (i % 4 + 1)
  let (nextl, nextr) := blowfish_encipher c datal datar
  ({ c with p := (c.p.set i nextl).set (i + 1) nextr }, nextl, nextr)

/-- One step of `blowfish_expandstate_data`'s S-box loop for box `i`, at
loop index `k = 2*j`: XOR `data[(k + 2) % 4]` and `data[(k + 2) % 4 + 1]`
into the running words, encipher, store the results in `s[i][k]` and
`s[i][k+1]`. -/
def dataSStep (data : List Nat) (i j : Nat) (st : BlowfishContext × Nat × Nat) :
    BlowfishContext × Nat × Nat :=
  let (c, datal, datar) := st
  let k := 2 * j
  let datal := datal ^^^ nthW data ((k + 2) % 4)
  let datar := datar ^^^ nthW data ((k + 2) % 4 + 1)
  let (nextl, nextr) := blowfish_encipher c datal datar
  ({ c with s := setS (setS c.s i k nextl) i (k + 1) nextr }, nextl, nextr)

/-- `blowfish_expandstate_data`: rebuild the P-array (9 pairs) and all four
S-boxes (128 pairs each) by walking the 4-word data block. -/
def blowfish_expandstate_data (c : BlowfishContext) (data : List Nat) : BlowfishContext :=
  let st := foldRange (dataPStep data) 9 (c, 0, 0)
  let st := foldRange (fun i st => foldRange (dataSStep data i) 128 st) 4 st
  st.1

/-- One step of `blowfish_expandstate_data0`'s P-array loop, at loop index
`i = 2*j`: encipher the running words and store them in `p[i]`, `p[i+1]`. -/
def data0PStep (j : Nat) (st : BlowfishContext × Nat × Nat) :
    BlowfishContext × Nat × Nat :=
  let (c, datal, datar) := st
  let i := 2 * j
  let (nextl, nextr) := blowfish_encipher c datal datar
  ({ c with p := (c.p.set i nextl).set (i + 1) nextr }, nextl, nextr)

/-- One step of `blowfish_expandstate_data0`'s S-box loop for box `i`, at
loop index `k = 2*j`: encipher the running words and store them in
`s[i][k]`, `s[i][k+1]`. -/
def data0SStep (i j : Nat) (st : BlowfishContext × Nat × Nat) :
    BlowfishContext × Nat × Nat :=
  let (c, datal, datar) := st
  let k := 2 * j
  let (nextl, nextr) := blowfish_encipher c datal datar
  ({ c with s := setS (setS c.s i k nextl) i (k + 1) nextr }, nextl, nextr)

/-- `blowfish_expandstate_data0`: like `blowfish_expandstate_data` but with
no data XORed into the running words before each encipher. -/
def blowfish_expandstate_data0 (c : BlowfishContext) : BlowfishContext :=
  let st := foldRange data0PStep 9 (c, 0, 0)
  let st := foldRange (fun i st => foldRange (data0SStep i) 128 st) 4 st
  st.1

/-- The body of `bcrypt`'s expensive key-schedule loop: expand by the key,
expand by a zero block, XOR the salt words into the P-array, expand by a
zero block again. -/
def eksRound (key : List Nat) (saltw : List Nat) (c : BlowfishContext) : BlowfishContext :=
  let c := blowfish_expandstate_key c key
  let c := blowfish_expandstate_data0 c
  let c := { c with
    p := foldRange (fun i p => p.set i (nthW p i ^^^ nthW saltw (i % 4))) 18 c.p }
  blowfish_expandstate_data0 c

/-- One step of `bcrypt`'s final encipher loop, at loop index `i = 2*j`:
replace `(cdata[i], cdata[i+1])` with their encipherment. -/
def encipherMsgStep (c : BlowfishContext) (j : Nat) (cdata : List Nat) : List Nat :=
  let i := 2 * j
  let (l, r) := blowfish_encipher c (nthW cdata i) (nthW cdata (i + 1))
  (cdata.set i l).set (i + 1) r

/-- The serialisation at the end of `bcrypt`: the four big-endian bytes of
`cdata[0]`…`cdata[4]` fill the first 20 output bytes, and the first three
big-endian bytes of `cdata[5]` fill the rest. -/
def serializeHash (cdata : List Nat) : List Nat :=
  u32_to_be_bytes (nthW cdata 0) ++ u32_to_be_bytes (nthW cdata 1) ++
    u32_to_be_bytes (nthW cdata 2) ++ u32_to_be_bytes (nthW cdata 3) ++
    u32_to_be_bytes (nthW cdata 4) ++ (u32_to_be_bytes (nthW cdata 5)).take 3

/-- The body of `bcrypt` after its input checks pass: the EksBlowfish key
schedule followed by 64 encipherments of the constant message. -/
def bcryptRaw (key : List Nat) (salt : Salt) (work_factor : WorkFactor) : List Nat :=
  let state := BLOWFISH_INITIAL
  let state := blowfish_expandstate_key state key
  let state := blowfish_expandstate_data state salt.be
  let state := foldRange (fun _ c => eksRound key salt.be c) work_factor.linear_rounds state
  let cdata := foldRange (fun _ cdata => foldRange (encipherMsgStep state) 3 cdata)
    64 BCRYPT_MESSAGE
  serializeHash cdata

/-- `bcrypt`: validate the key (length, then zero bytes), then run the
expensive key schedule and produce the 23-byte hash. -/
def bcrypt (key : List Nat) (salt : Salt) (work_factor : WorkFactor) :
    Except BcryptError (List Nat) :=
  if key.length > KEY_SIZE_MAX then .error .Length
  else if key.contains 0 then .error .ZeroByte
  else .ok (bcryptRaw key salt work_factor)

/-!
## Specification-side definitions

The following definitions transcribe what the specification (and the claims
drawn from it) state, in the specification's own terms; the theorems below
compare them with the implementation definitions above.
-/

/-- The round function `F` as the specification states it: split the 32-bit
input into four big-endian bytes `b0 b1 b2 b3` and return
`((S[0][b0] + S[1][b1]) XOR S[2][b2]) + S[3][b3]` with `+` taken modulo
`2^32`. -/
def fSpec (c : BlowfishContext) (x : Nat) : Nat :=
  let b0 := x / 2 ^ 24 % 256
  let b1 := x / 2 ^ 16 % 256
  let b2 := x / 2 ^ 8 % 256
  let b3 := x % 256
  (((nthS c.s 0 b0 + nthS c.s 1 b1) % 2 ^ 32 ^^^ nthS c.s 2 b2) + nthS c.s 3 b3) % 2 ^ 32

/-- `encipher` as the specification states it: sixteen Feistel rounds
written out (for `i = 0, 2, …, 14`: `L ← L XOR P[i]`, `R ← R XOR F(L)`,
`R ← R XOR P[i+1]`, `L ← L XOR F(R)`), the final XORs with `P[16]` and
`P[17]`, and the returned pair swapped. -/
def encipherSpec (c : BlowfishContext) (L R : Nat) : Nat × Nat :=
  let L := L ^^^ nthW c.p 0
  let R := R ^^^ fSpec c L
  let R := R ^^^ nthW c.p 1
  let L := L ^^^ fSpec c R
  let L := L ^^^ nthW c.p 2
  let R := R ^^^ fSpec c L
  let R := R ^^^ nthW c.p 3
  let L := L ^^^ fSpec c R
  let L := L ^^^ nthW c.p 4
  let R := R ^^^ fSpec c L
  let R := R ^^^ nthW c.p 5
  let L := L ^^^ fSpec c R
  let L := L ^^^ nthW c.p 6
  let R := R ^^^ fSpec c L
  let R := R ^^^ nthW c.p 7
  let L := L ^^^ fSpec c R
  let L := L ^^^ nthW c.p 8
  let R := R ^^^ fSpec c L
  let R := R ^^^ nthW c.p 9
  let L := L ^^^ fSpec c R
  let L := L ^^^ nthW c.p 10
  let R := R ^^^ fSpec c L
  let R := R ^^^ nthW c.p 11
  let L := L ^^^ fSpec c R
  let L := L ^^^ nthW c.p 12
  let R := R ^^^ fSpec c L
  let R := R ^^^ nthW c.p 13
  let L := L ^^^ fSpec c R
  let L := L ^^^ nthW c.p 14
  let R := R ^^^ fSpec c L
  let R := R ^^^ nthW c.p 15
  let L := L ^^^ fSpec c R
  let L := L ^^^ nthW c.p 16
  let R := R ^^^ nthW c.p 17
  (R, L)

/-- The P-array phase of `expandstate_data` as the specification states it,
at pair `i = 2*j`: XOR `data[i mod 4]` into `L` and `data[(i+1) mod 4]`
into `R` before the encipher, then store the result into `P[i], P[i+1]`. -/
def dataPStepSpec (data : List Nat) (j : Nat) (st : BlowfishContext × Nat × Nat) :
    BlowfishContext × Nat × Nat :=
  let (c, L, R) := st
  let L := L ^^^ nthW data (2 * j % 4)
  let R := R ^^^ nthW data ((2 * j + 1) % 4)
  let (L, R) := blowfish_encipher c L R
  ({ c with p := (c.p.set (2 * j) L).set (2 * j + 1) R }, L, R)

/-- The S-box phase of `expandstate_data` as the specification states it,
for box `i` at pair `k = 2*j`: XOR `data[(k+2) mod 4]` into `L` and
`data[((k+2) mod 4) + 1]` into `R` before the encipher, then store the
result into `S[i][k], S[i][k+1]`. -/
def dataSStepSpec (data : List Nat) (i j : Nat) (st : BlowfishContext × Nat × Nat) :
    BlowfishContext × Nat × Nat :=
  let (c, L, R) := st
  let L := L ^^^ nthW data ((2 * j + 2) % 4)
  let R := R ^^^ nthW data ((2 * j + 2) % 4 + 1)
  let (L, R) := blowfish_encipher c L R
  ({ c with s := setS (setS c.s i (2 * j) L) i (2 * j + 1) R }, L, R)

/-- `expandstate_data` as the specification states it: start from
`(L, R) = (0, 0)`, walk the nine P-array pairs, then the four S-boxes in
order, 128 pairs each. -/
def expandstate_dataSpec (c : BlowfishContext) (data : List Nat) : BlowfishContext :=
  let st := foldRange (dataPStepSpec data) 9 (c, 0, 0)
  let st := foldRange (fun i st => foldRange (dataSStepSpec data i) 128 st) 4 st
  st.1

/-- The key cycler's byte stream as the specification states it: position
`t` of the infinite sequence `key[0], …, key[n-1], 0x00, key[0], …` (only
`0x00` forever when the key is empty). -/
def cyclerByte (key : List Nat) (t : Nat) : Nat :=
  if t % (key.length + 1) = key.length then 0
  else nthW key (t % (key.length + 1))

/-- The `i`-th big-endian 32-bit word assembled from four consecutive bytes
of a fresh cycler started at position 0 (so word `i` uses positions
`4*i … 4*i+3`; the 18 words consume exactly 72 cycler bytes). -/
def cyclerWord (key : List Nat) (i : Nat) : Nat :=
  cyclerByte key (4 * i) <<< 24 ||| cyclerByte key (4 * i + 1) <<< 16 |||
    cyclerByte key (4 * i + 2) <<< 8 ||| cyclerByte key (4 * i + 3)

/-- `expandstate_key` as the specification states it: XOR into each of the
18 P-words, in order, the corresponding big-endian word of the fresh key
cycler; the S-boxes are untouched. -/
def expandstate_keySpec (c : BlowfishContext) (key : List Nat) : BlowfishContext :=
  { c with p := foldRange (fun i p => p.set i (nthW p i ^^^ cyclerWord key i)) 18 c.p }

/-- The full bcrypt pipeline as the specification states it for a work
factor of cost `cost`: copy the canonical initial state, expand by the key
and then by the salt words, repeat the four-step key schedule `2^cost`
times, encipher the six message words 64 times (three blocks at `i = 0, 2,
4`), and serialise. -/
def bcryptSpecPipeline (key : List Nat) (saltw : List Nat) (cost : Nat) : List Nat :=
  let st := BLOWFISH_INITIAL
  let st := blowfish_expandstate_key st key
  let st := blowfish_expandstate_data st saltw
  let st := foldRange (fun _ c => eksRound key saltw c) (2 ^ cost) st
  let cdata := foldRange (fun _ cd =>
    let ab := blowfish_encipher st (nthW cd 0) (nthW cd 1)
    let cd := (cd.set 0 ab.1).set 1 ab.2
    let ab := blowfish_encipher st (nthW cd 2) (nthW cd 3)
    let cd := (cd.set 2 ab.1).set 3 ab.2
    let ab := blowfish_encipher st (nthW cd 4) (nthW cd 5)
    (cd.set 4 ab.1).set 5 ab.2) 64 BCRYPT_MESSAGE
  serializeHash cdata

/-!
## Theorems
-/

/-- `foldRange` at zero. -/
theorem foldRange_zero (f : Nat → α → α) (a : α) : foldRange f 0 a = a := rfl

/-- `foldRange` at a successor. -/
theorem foldRange_succ (f : Nat → α → α) (n : Nat) (a : α) :
    foldRange f (n + 1) a = f n (foldRange f n a) := rfl

/-- Every read of the all-zero data block yields zero, whatever the index. -/
theorem nthW_zero_block (i : Nat) : nthW [0, 0, 0, 0] i = 0 := by
  match i with
  | 0 => rfl
  | 1 => rfl
  | 2 => rfl
  | 3 => rfl
  | n + 4 => rfl

/-- Unfolding a three-step fold (the final message loop). -/
theorem foldRange_three (g : Nat → α → α) (a : α) :
    foldRange g 3 a = g 2 (g 1 (g 0 a)) := rfl

/-- Unfolding a four-step fold (the salt-word loop). -/
theorem foldRange_four (g : Nat → α → α) (a : α) :
    foldRange g 4 a = g 3 (g 2 (g 1 (g 0 a))) := rfl

/-- Unfolding an eight-step fold (the encipher loop). -/
theorem foldRange_eight (g : Nat → Nat × Nat → Nat × Nat) (a : Nat × Nat) :
    foldRange g 8 a = g 7 (g 6 (g 5 (g 4 (g 3 (g 2 (g 1 (g 0 a))))))) := rfl

attribute [irreducible] foldRange

/-- Claim C7: `WorkFactor.exp c` yields a value exactly for `c` between 4
and 31, and such a work factor reports `log_rounds = c` and
`linear_rounds = 2^c`; in particular at the boundaries 3, 4, 31 and 32. -/
theorem workfactor_exp_spec (c : Nat) :
    ((WorkFactor.exp c).isSome ↔ 4 ≤ c ∧ c ≤ 31) ∧
    (∀ w, WorkFactor.exp c = some w →
      w.log_rounds = c ∧ w.linear_rounds = 2 ^ c) ∧
    WorkFactor.exp 3 = none ∧ WorkFactor.exp 32 = none ∧
    (WorkFactor.exp 4).map WorkFactor.log_rounds = some 4 ∧
    (WorkFactor.exp 31).map WorkFactor.linear_rounds = some 2147483648 := by
  refine ⟨?_, ?_, by decide, by decide, by decide, by decide⟩
  · unfold WorkFactor.exp
    split <;> simp_all
  · intro w hw
    unfold WorkFactor.exp at hw
    split at hw
    · cases hw
      refine ⟨rfl, ?_⟩
      show (1 <<< c) % W32 = 2 ^ c
      rw [Nat.one_shiftLeft]
      refine Nat.mod_eq_of_lt ?_
      show 2 ^ c < 2 ^ 32
      exact Nat.pow_lt_pow_right (by norm_num) (by omega)
    · cases hw

/-- Claim C6: `expandstate_data0` produces exactly the state of
`expandstate_data` applied to the all-zero data block. -/
theorem expandstate_data0_eq_zero_block (c : BlowfishContext) :
    blowfish_expandstate_data0 c = blowfish_expandstate_data c [0, 0, 0, 0] := by
  have hP : data0PStep = dataPStep [0, 0, 0, 0] := by
    funext j st
    obtain ⟨cc, l, r⟩ := st
    simp [data0PStep, dataPStep, nthW_zero_block]
  have hS : ∀ i, data0SStep i = dataSStep [0, 0, 0, 0] i := by
    intro i
    funext j st
    obtain ⟨cc, l, r⟩ := st
    simp [data0SStep, dataSStep, nthW_zero_block]
  unfold blowfish_expandstate_data0 blowfish_expandstate_data
  simp only [hP, hS]

/-- Claim C6 witness: the equivalence applied at the canonical initial
state. -/
theorem expandstate_data0_eq_zero_block_witness :
    blowfish_expandstate_data0 BLOWFISH_INITIAL =
      blowfish_expandstate_data BLOWFISH_INITIAL [0, 0, 0, 0] :=
  expandstate_data0_eq_zero_block BLOWFISH_INITIAL

/-- Claim C3: `blowfish_encipher` performs exactly the sixteen Feistel
rounds, final XORs and swap stated by the specification, with the stated
round function `F`. -/
theorem encipher_spec (c : BlowfishContext) (L R x : Nat) :
    blowfish_encipher c L R = encipherSpec c L R ∧ f c x = fSpec c x := by
  have hf : f = fSpec := by
    funext c x
    simp only [f, fSpec, Nat.shiftRight_eq_div_pow, add32, W32]
    norm_num
  constructor
  · simp only [blowfish_encipher, foldRange_eight, encipherRound, encipherSpec, hf]
  · rw [hf]

/-- Claim C2: `bcrypt` fails with `Length` exactly on keys longer than 72
bytes, with `ZeroByte` exactly on keys of at most 72 bytes containing a
zero byte (so `Length` wins when both hold), and succeeds in every other
case. -/
theorem bcrypt_error_spec (key : List Nat) (salt : Salt) (wf : WorkFactor) :
    (bcrypt key salt wf = .error .Length ↔ key.length > 72) ∧
    (bcrypt key salt wf = .error .ZeroByte ↔ key.length ≤ 72 ∧ 0 ∈ key) ∧
    (key.length ≤ 72 → 0 ∉ key → bcrypt key salt wf = .ok (bcryptRaw key salt wf)) := by
  have hc : key.contains 0 = decide (0 ∈ key) := List.elem_eq_mem 0 key
  unfold bcrypt
  by_cases h1 : key.length > 72
  · simp [KEY_SIZE_MAX, h1, Nat.not_le_of_lt h1]
  · by_cases h2 : (0 : Nat) ∈ key
    · simp [KEY_SIZE_MAX, h1, h2, hc, Nat.le_of_not_lt h1]
    · simp [KEY_SIZE_MAX, h1, h2, hc]

/-- Claim C2 witness: the characterisation applied at a 73-byte key. -/
theorem bcrypt_error_spec_witness :
    (bcrypt (List.replicate 73 1) ⟨[0, 0, 0, 0]⟩ ⟨4⟩ = .error .Length ↔
      (List.replicate 73 1).length > 72) ∧
    (bcrypt (List.replicate 73 1) ⟨[0, 0, 0, 0]⟩ ⟨4⟩ = .error .ZeroByte ↔
      (List.replicate 73 1).length ≤ 72 ∧ 0 ∈ List.replicate 73 1) ∧
    ((List.replicate 73 1).length ≤ 72 → 0 ∉ List.replicate 73 1 →
      bcrypt (List.replicate 73 1) ⟨[0, 0, 0, 0]⟩ ⟨4⟩ =
        .ok (bcryptRaw (List.replicate 73 1) ⟨[0, 0, 0, 0]⟩ ⟨4⟩)) :=
  bcrypt_error_spec (List.replicate 73 1) ⟨[0, 0, 0, 0]⟩ ⟨4⟩

/-- Claim C4: `blowfish_expandstate_data` walks the P-array and S-boxes
exactly as the specification states, with the stated data-index patterns. -/
theorem expandstate_data_spec (c : BlowfishContext) (data : List Nat) :
    blowfish_expandstate_data c data = expandstate_dataSpec c data := by
  have hP : dataPStep data = dataPStepSpec data := by
    funext j st
    obtain ⟨cc, l, r⟩ := st
    have hidx : 2 * j % 4 + 1 = (2 * j + 1) % 4 := by omega
    simp [dataPStep, dataPStepSpec, hidx]
  have hS : ∀ i, dataSStep data i = dataSStepSpec data i := by
    intro i
    funext j st
    obtain ⟨cc, l, r⟩ := st
    simp [dataSStep, dataSStepSpec]
  unfold blowfish_expandstate_data expandstate_dataSpec
  simp only [hP, hS]

/-- Claim C4 witness: the walk equivalence applied at the canonical initial
state and an all-zero data block. -/
theorem expandstate_data_spec_witness :
    blowfish_expandstate_data BLOWFISH_INITIAL [1, 2, 3, 4] =
      expandstate_dataSpec BLOWFISH_INITIAL [1, 2, 3, 4] :=
  expandstate_data_spec BLOWFISH_INITIAL [1, 2, 3, 4]

/-- The key cycler, read at stream position `t` (its `index` field is
`t mod (n+1)` for a key of length `n`), yields the byte the specification's
stream assigns to position `t` and moves to position `t + 1`. -/
theorem nextUnwrap_stream (key : List Nat) (t : Nat) :
    nextUnwrap ⟨key, t % (key.length + 1)⟩ =
      (cyclerByte key t, ⟨key, (t + 1) % (key.length + 1)⟩) := by
  unfold nextUnwrap KeyCycle.next cyclerByte
  by_cases h : t % (key.length + 1) = key.length
  · have h1 : (t + 1) % (key.length + 1) = 0 := by
      rcases hn : key.length with _ | n
      · simp [Nat.mod_one]
      · rw [hn] at h
        rw [Nat.add_mod, h]
        have h2 : 1 % (n + 1 + 1) = 1 := Nat.mod_eq_of_lt (by omega)
        rw [h2, Nat.mod_self]
    simp [h, h1]
  · have hr : t % (key.length + 1) < key.length :=
      Nat.lt_of_le_of_ne (Nat.le_of_lt_succ (Nat.mod_lt _ (by omega))) h
    have h1 : (t + 1) % (key.length + 1) = t % (key.length + 1) + 1 := by
      rw [Nat.add_mod]
      have h2 : 1 % (key.length + 1) = 1 := Nat.mod_eq_of_lt (by omega)
      rw [h2]
      exact Nat.mod_eq_of_lt (by omega)
    simp [h, h1]

/-- Reading one big-endian word from the cycler at stream position `t`
yields the word of the four stream bytes at `t … t+3` and moves the cycler
to position `t + 4`. -/
theorem read_u32_be_stream (key : List Nat) (t : Nat) :
    read_u32_be ⟨key, t % (key.length + 1)⟩ =
      (cyclerByte key t <<< 24 ||| cyclerByte key (t + 1) <<< 16 |||
        cyclerByte key (t + 2) <<< 8 ||| cyclerByte key (t + 3),
       ⟨key, (t + 4) % (key.length + 1)⟩) := by
  unfold read_u32_be
  rw [nextUnwrap_stream]
  dsimp only
  rw [nextUnwrap_stream]
  dsimp only
  rw [nextUnwrap_stream]
  dsimp only
  rw [nextUnwrap_stream]

/-- The key-expansion fold equals the specification's per-word XOR fold,
with the cycler sitting at stream position `4*m` after `m` words. -/
theorem expandkey_fold_stream (key : List Nat) (p0 : List Nat) (m : Nat) :
    foldRange expandKeyStep m (p0, ⟨key, 0⟩) =
    (foldRange (fun i p => p.set i (nthW p i ^^^ cyclerWord key i)) m p0,
      ⟨key, 4 * m % (key.length + 1)⟩) := by
  induction m with
  | zero => simp [foldRange_zero]
  | succ m ih =>
    rw [foldRange_succ, foldRange_succ, ih]
    unfold expandKeyStep
    dsimp only
    rw [read_u32_be_stream key (4 * m)]
    have h4 : 4 * m + 4 = 4 * (m + 1) := by ring
    rw [h4]
    simp only [cyclerWord]

/-- Claim C5: `blowfish_expandstate_key` XORs into each of the 18 P-words
the big-endian word of four consecutive bytes of a fresh key cycler
(positions `4*i … 4*i+3`, hence exactly 72 cycler bytes), and leaves the
S-boxes unchanged. -/
theorem expandstate_key_spec (c : BlowfishContext) (key : List Nat) :
    blowfish_expandstate_key c key = expandstate_keySpec c key ∧
    (blowfish_expandstate_key c key).s = c.s := by
  have h1 : blowfish_expandstate_key c key =
      BlowfishContext.mk c.s
        (foldRange expandKeyStep 18 ((c.p, ⟨key, 0⟩) : List Nat × KeyCycle)).1 := rfl
  have h2 : BlowfishContext.mk c.s
        (foldRange expandKeyStep 18 ((c.p, ⟨key, 0⟩) : List Nat × KeyCycle)).1 =
      BlowfishContext.mk c.s
        ((foldRange (fun i p => p.set i (nthW p i ^^^ cyclerWord key i)) 18 c.p,
          (⟨key, 4 * 18 % (key.length + 1)⟩ : KeyCycle)) : List Nat × KeyCycle).1 :=
    congrArg (fun q => BlowfishContext.mk c.s q.1) (expandkey_fold_stream key c.p 18)
  have h3 : BlowfishContext.mk c.s
        ((foldRange (fun i p => p.set i (nthW p i ^^^ cyclerWord key i)) 18 c.p,
          (⟨key, 4 * 18 % (key.length + 1)⟩ : KeyCycle)) : List Nat × KeyCycle).1 =
      expandstate_keySpec c key := rfl
  have main := h1.trans (h2.trans h3)
  exact ⟨main, by rw [main]; rfl⟩

/-- Claim C5 witness: the key expansion equivalence applied at the
canonical initial state and a concrete three-byte key. -/
theorem expandstate_key_spec_witness :
    blowfish_expandstate_key BLOWFISH_INITIAL [97, 98, 99] =
      expandstate_keySpec BLOWFISH_INITIAL [97, 98, 99] ∧
    (blowfish_expandstate_key BLOWFISH_INITIAL [97, 98, 99]).s =
      BLOWFISH_INITIAL.s :=
  expandstate_key_spec BLOWFISH_INITIAL [97, 98, 99]

/-- The cycler's `next` always yields a value: its `Option` is always
`some`, with the value and successor state that `nextUnwrap` reads off. -/
theorem next_always_some (kc : KeyCycle) :
    KeyCycle.next kc = (some (nextUnwrap kc).1, (nextUnwrap kc).2) := by
  unfold nextUnwrap KeyCycle.next
  split <;> rfl

/-- Claim C10: `bcrypt` and its helpers are total — the cycler's iterator
never returns `none`, so the four `unwrap`s inside `read_u32_be` cannot
panic (the `Option`-strict reading always succeeds and agrees with the
total one), and the data indices taken by the two expand-state loops are
always 1 or 3 in their second component (the loop counters are even), hence
in bounds for the four-word block. -/
theorem key_cycle_safety :
    (∀ kc : KeyCycle, ∃ b kc', KeyCycle.next kc = (some b, kc')) ∧
    (∀ kc : KeyCycle, read_u32_be_checked kc = some (read_u32_be kc) ∧
      (read_u32_be_checked kc).isSome) ∧
    (∀ j, j < 9 → 2 * j % 4 + 1 = 1 ∨ 2 * j % 4 + 1 = 3) ∧
    (∀ j, j < 128 → (2 * j + 2) % 4 + 1 = 1 ∨ (2 * j + 2) % 4 + 1 = 3) := by
  have hagree : ∀ kc : KeyCycle, read_u32_be_checked kc = some (read_u32_be kc) := by
    intro kc
    unfold read_u32_be_checked read_u32_be
    rw [next_always_some kc]
    dsimp only [Option.bind]
    rw [next_always_some (nextUnwrap kc).2]
    dsimp only [Option.bind]
    rw [next_always_some (nextUnwrap (nextUnwrap kc).2).2]
    dsimp only [Option.bind]
    rw [next_always_some (nextUnwrap (nextUnwrap (nextUnwrap kc).2).2).2]
    rfl
  refine ⟨?_, fun kc => ⟨hagree kc, ?_⟩, ?_, ?_⟩
  · intro kc
    exact ⟨(nextUnwrap kc).1, (nextUnwrap kc).2, next_always_some kc⟩
  · rw [hagree kc]
    rfl
  · intro j hj
    omega
  · intro j hj
    omega

/-- A value below `2^k` has no set bit at positions `k` and above. -/
theorem tb_small (b j k : Nat) (hb : b < 2 ^ k) (hj : k ≤ j) : b.testBit j = false :=
  Nat.testBit_eq_false_of_lt (lt_of_lt_of_le hb (Nat.pow_le_pow_right (by norm_num) hj))

/-- Byte 0 of a big-endian word round-trips. -/
theorem be_word_byte0 (b0 b1 b2 b3 : Nat) (h0 : b0 < 256) (h1 : b1 < 256)
    (h2 : b2 < 256) (h3 : b3 < 256) :
    (u32_from_be_bytes b0 b1 b2 b3 >>> 24) % 256 = b0 := by
  have e : (256 : Nat) = 2 ^ 8 := by norm_num
  rw [e]
  apply Nat.eq_of_testBit_eq
  intro i
  simp only [u32_from_be_bytes, Nat.testBit_mod_two_pow, Nat.testBit_shiftRight,
    Nat.testBit_or, Nat.testBit_shiftLeft]
  by_cases hi : i < 8
  · have e1 : b1.testBit (24 + i - 16) = false := tb_small _ _ 8 (e ▸ h1) (by omega)
    have e2 : b2.testBit (24 + i - 8) = false := tb_small _ _ 8 (e ▸ h2) (by omega)
    have e3 : b3.testBit (24 + i) = false := tb_small _ _ 8 (e ▸ h3) (by omega)
    have e0 : 24 + i - 24 = i := by omega
    simp [hi, e0, e1, e2, e3, Nat.le_add_right]
  · have e0 : b0.testBit i = false := tb_small _ _ 8 (e ▸ h0) (by omega)
    simp [hi, e0]

/-- Byte 1 of a big-endian word round-trips. -/
theorem be_word_byte1 (b0 b1 b2 b3 : Nat) (h1 : b1 < 256)
    (h2 : b2 < 256) (h3 : b3 < 256) :
    (u32_from_be_bytes b0 b1 b2 b3 >>> 16) % 256 = b1 := by
  have e : (256 : Nat) = 2 ^ 8 := by norm_num
  rw [e]
  apply Nat.eq_of_testBit_eq
  intro i
  simp only [u32_from_be_bytes, Nat.testBit_mod_two_pow, Nat.testBit_shiftRight,
    Nat.testBit_or, Nat.testBit_shiftLeft]
  by_cases hi : i < 8
  · have e2 : b2.testBit (16 + i - 8) = false := tb_small _ _ 8 (e ▸ h2) (by omega)
    have e3 : b3.testBit (16 + i) = false := tb_small _ _ 8 (e ▸ h3) (by omega)
    have e1 : 16 + i - 16 = i := by omega
    have q0 : ¬(16 + i ≥ 24) := by omega
    simp [hi, q0, e1, e2, e3, Nat.le_add_right]
  · have e1 : b1.testBit i = false := tb_small _ _ 8 (e ▸ h1) (by omega)
    simp [hi, e1]

/-- Byte 2 of a big-endian word round-trips. -/
theorem be_word_byte2 (b0 b1 b2 b3 : Nat) (h2 : b2 < 256) (h3 : b3 < 256) :
    (u32_from_be_bytes b0 b1 b2 b3 >>> 8) % 256 = b2 := by
  have e : (256 : Nat) = 2 ^ 8 := by norm_num
  rw [e]
  apply Nat.eq_of_testBit_eq
  intro i
  simp only [u32_from_be_bytes, Nat.testBit_mod_two_pow, Nat.testBit_shiftRight,
    Nat.testBit_or, Nat.testBit_shiftLeft]
  by_cases hi : i < 8
  · have e3 : b3.testBit (8 + i) = false := tb_small _ _ 8 (e ▸ h3) (by omega)
    have e2 : 8 + i - 8 = i := by omega
    have q0 : ¬(8 + i ≥ 24) := by omega
    have q1 : ¬(8 + i ≥ 16) := by omega
    simp [hi, q0, q1, e2, e3, Nat.le_add_right]
  · have e2 : b2.testBit i = false := tb_small _ _ 8 (e ▸ h2) (by omega)
    simp [hi, e2]

/-- Byte 3 of a big-endian word round-trips. -/
theorem be_word_byte3 (b0 b1 b2 b3 : Nat) (h3 : b3 < 256) :
    u32_from_be_bytes b0 b1 b2 b3 % 256 = b3 := by
  have e : (256 : Nat) = 2 ^ 8 := by norm_num
  rw [e]
  apply Nat.eq_of_testBit_eq
  intro i
  simp only [u32_from_be_bytes, Nat.testBit_mod_two_pow,
    Nat.testBit_or, Nat.testBit_shiftLeft]
  by_cases hi : i < 8
  · have q0 : ¬(i ≥ 24) := by omega
    have q1 : ¬(i ≥ 16) := by omega
    have q2 : ¬(i ≥ 8) := by omega
    simp [hi, q0, q1, q2]
  · have e3 : b3.testBit i = false := tb_small _ _ 8 (e ▸ h3) (by omega)
    simp [hi, e3]

/-- Reassembling the four big-endian bytes of a 32-bit word yields the
word back. -/
theorem be_word_assemble (w : Nat) (hw : w < 4294967296) :
    u32_from_be_bytes ((w >>> 24) % 256) ((w >>> 16) % 256) ((w >>> 8) % 256)
      (w % 256) = w := by
  have e : (256 : Nat) = 2 ^ 8 := by norm_num
  have e32 : (4294967296 : Nat) = 2 ^ 32 := by norm_num
  rw [e]
  apply Nat.eq_of_testBit_eq
  intro i
  simp only [u32_from_be_bytes, Nat.testBit_mod_two_pow, Nat.testBit_shiftRight,
    Nat.testBit_or, Nat.testBit_shiftLeft]
  by_cases c1 : i < 8
  · have q0 : ¬(i ≥ 24) := by omega
    have q1 : ¬(i ≥ 16) := by omega
    have q2 : ¬(i ≥ 8) := by omega
    simp [c1, q0, q1, q2]
  · by_cases c2 : i < 16
    · have q0 : ¬(i ≥ 24) := by omega
      have q1 : ¬(i ≥ 16) := by omega
      have r2 : i - 8 < 8 := by omega
      have s2 : 8 + (i - 8) = i := by omega
      simp [c1, c2, q0, q1, r2, s2, (by omega : i ≥ 8)]
    · by_cases c3 : i < 24
      · have q0 : ¬(i ≥ 24) := by omega
        have r1 : i - 16 < 8 := by omega
        have s1 : 16 + (i - 16) = i := by omega
        have r2 : ¬(i - 8 < 8) := by omega
        simp [c1, c2, c3, q0, r1, s1, r2, (by omega : i ≥ 8), (by omega : i ≥ 16)]
      · by_cases c4 : i < 32
        · have r0 : i - 24 < 8 := by omega
          have s0 : 24 + (i - 24) = i := by omega
          have r1 : ¬(i - 16 < 8) := by omega
          have r2 : ¬(i - 8 < 8) := by omega
          simp [r0, s0, r1, r2, (by omega : i ≥ 8), (by omega : i ≥ 16),
            (by omega : i ≥ 24)]
        · have ew : w.testBit i = false := tb_small _ _ 32 (e32 ▸ hw) (by omega)
          have r0 : ¬(i - 24 < 8) := by omega
          have r1 : ¬(i - 16 < 8) := by omega
          have r2 : ¬(i - 8 < 8) := by omega
          have r3 : ¬(i < 8) := by omega
          simp [ew, r0, r1, r2, r3]

/-- A list of length `n + 1` splits into a head and a tail of length `n`. -/
theorem list_uncons (l : List Nat) (n : Nat) (h : l.length = n + 1) :
    ∃ y t, l = y :: t ∧ t.length = n := by
  cases l with
  | nil => simp at h
  | cons y t => exact ⟨y, t, rfl, by simpa using h⟩

/-- Claim C8: salt construction is total and bijective — `to_bytes` after
`from_bytes` is the identity on 16-byte arrays, and `from_bytes` after
`to_bytes` is the identity on salts (four 32-bit words). -/
theorem salt_roundtrip (b : List Nat) (s : Salt)
    (hb : b.length = 16) (hbyte : ∀ x ∈ b, x < 256)
    (hs : s.be.length = 4) (hword : ∀ w ∈ s.be, w < W32) :
    Salt.to_bytes (Salt.from_bytes b) = b ∧ Salt.from_bytes (Salt.to_bytes s) = s := by
  constructor
  · obtain ⟨x0, b1, rfl, hb1⟩ := list_uncons b 15 hb
    obtain ⟨x1, b2, rfl, hb2⟩ := list_uncons b1 14 hb1
    obtain ⟨x2, b3, rfl, hb3⟩ := list_uncons b2 13 hb2
    obtain ⟨x3, b4, rfl, hb4⟩ := list_uncons b3 12 hb3
    obtain ⟨x4, b5, rfl, hb5⟩ := list_uncons b4 11 hb4
    obtain ⟨x5, b6, rfl, hb6⟩ := list_uncons b5 10 hb5
    obtain ⟨x6, b7, rfl, hb7⟩ := list_uncons b6 9 hb6
    obtain ⟨x7, b8, rfl, hb8⟩ := list_uncons b7 8 hb7
    obtain ⟨x8, b9, rfl, hb9⟩ := list_uncons b8 7 hb8
    obtain ⟨x9, b10, rfl, hb10⟩ := list_uncons b9 6 hb9
    obtain ⟨x10, b11, rfl, hb11⟩ := list_uncons b10 5 hb10
    obtain ⟨x11, b12, rfl, hb12⟩ := list_uncons b11 4 hb11
    obtain ⟨x12, b13, rfl, hb13⟩ := list_uncons b12 3 hb12
    obtain ⟨x13, b14, rfl, hb14⟩ := list_uncons b13 2 hb13
    obtain ⟨x14, b15, rfl, hb15⟩ := list_uncons b14 1 hb14
    obtain ⟨x15, b16, rfl, hb16⟩ := list_uncons b15 0 hb15
    obtain rfl : b16 = [] := List.length_eq_zero.mp hb16
    have h0 : x0 < 256 := hbyte x0 (by simp)
    have h1 : x1 < 256 := hbyte x1 (by simp)
    have h2 : x2 < 256 := hbyte x2 (by simp)
    have h3 : x3 < 256 := hbyte x3 (by simp)
    have h4 : x4 < 256 := hbyte x4 (by simp)
    have h5 : x5 < 256 := hbyte x5 (by simp)
    have h6 : x6 < 256 := hbyte x6 (by simp)
    have h7 : x7 < 256 := hbyte x7 (by simp)
    have h8 : x8 < 256 := hbyte x8 (by simp)
    have h9 : x9 < 256 := hbyte x9 (by simp)
    have h10 : x10 < 256 := hbyte x10 (by simp)
    have h11 : x11 < 256 := hbyte x11 (by simp)
    have h12 : x12 < 256 := hbyte x12 (by simp)
    have h13 : x13 < 256 := hbyte x13 (by simp)
    have h14 : x14 < 256 := hbyte x14 (by simp)
    have h15 : x15 < 256 := hbyte x15 (by simp)
    have hfb : Salt.from_bytes
        [x0, x1, x2, x3, x4, x5, x6, x7, x8, x9, x10, x11, x12, x13, x14, x15] =
        ⟨[u32_from_be_bytes x0 x1 x2 x3, u32_from_be_bytes x4 x5 x6 x7,
          u32_from_be_bytes x8 x9 x10 x11, u32_from_be_bytes x12 x13 x14 x15]⟩ := by
      simp only [Salt.from_bytes, foldRange_four]
      norm_num [nthW]
    rw [hfb]
    simp only [Salt.to_bytes, u32_to_be_bytes, nthW]
    norm_num
    rw [be_word_byte0 _ _ _ _ h0 h1 h2 h3, be_word_byte1 _ _ _ _ h1 h2 h3,
      be_word_byte2 _ _ _ _ h2 h3, be_word_byte3 _ _ _ _ h3,
      be_word_byte0 _ _ _ _ h4 h5 h6 h7, be_word_byte1 _ _ _ _ h5 h6 h7,
      be_word_byte2 _ _ _ _ h6 h7, be_word_byte3 _ _ _ _ h7,
      be_word_byte0 _ _ _ _ h8 h9 h10 h11, be_word_byte1 _ _ _ _ h9 h10 h11,
      be_word_byte2 _ _ _ _ h10 h11, be_word_byte3 _ _ _ _ h11,
      be_word_byte0 _ _ _ _ h12 h13 h14 h15, be_word_byte1 _ _ _ _ h13 h14 h15,
      be_word_byte2 _ _ _ _ h14 h15, be_word_byte3 _ _ _ _ h15]
    simp
  · obtain ⟨be⟩ := s
    simp only at hs hword
    obtain ⟨w0, e1, rfl, hs1⟩ := list_uncons be 3 hs
    obtain ⟨w1, e2, rfl, hs2⟩ := list_uncons e1 2 hs1
    obtain ⟨w2, e3, rfl, hs3⟩ := list_uncons e2 1 hs2
    obtain ⟨w3, e4, rfl, hs4⟩ := list_uncons e3 0 hs3
    obtain rfl : e4 = [] := List.length_eq_zero.mp hs4
    have hw0 : w0 < 4294967296 := hword w0 (by simp)
    have hw1 : w1 < 4294967296 := hword w1 (by simp)
    have hw2 : w2 < 4294967296 := hword w2 (by simp)
    have hw3 : w3 < 4294967296 := hword w3 (by simp)
    have htb : Salt.to_bytes ⟨[w0, w1, w2, w3]⟩ =
        [(w0 >>> 24) % 256, (w0 >>> 16) % 256, (w0 >>> 8) % 256, w0 % 256,
         (w1 >>> 24) % 256, (w1 >>> 16) % 256, (w1 >>> 8) % 256, w1 % 256,
         (w2 >>> 24) % 256, (w2 >>> 16) % 256, (w2 >>> 8) % 256, w2 % 256,
         (w3 >>> 24) % 256, (w3 >>> 16) % 256, (w3 >>> 8) % 256, w3 % 256] := by
      simp [Salt.to_bytes, u32_to_be_bytes, nthW]
    rw [htb]
    have hfb : Salt.from_bytes
        [(w0 >>> 24) % 256, (w0 >>> 16) % 256, (w0 >>> 8) % 256, w0 % 256,
         (w1 >>> 24) % 256, (w1 >>> 16) % 256, (w1 >>> 8) % 256, w1 % 256,
         (w2 >>> 24) % 256, (w2 >>> 16) % 256, (w2 >>> 8) % 256, w2 % 256,
         (w3 >>> 24) % 256, (w3 >>> 16) % 256, (w3 >>> 8) % 256, w3 % 256] =
        ⟨[u32_from_be_bytes ((w0 >>> 24) % 256) ((w0 >>> 16) % 256) ((w0 >>> 8) % 256) (w0 % 256),
          u32_from_be_bytes ((w1 >>> 24) % 256) ((w1 >>> 16) % 256) ((w1 >>> 8) % 256) (w1 % 256),
          u32_from_be_bytes ((w2 >>> 24) % 256) ((w2 >>> 16) % 256) ((w2 >>> 8) % 256) (w2 % 256),
          u32_from_be_bytes ((w3 >>> 24) % 256) ((w3 >>> 16) % 256) ((w3 >>> 8) % 256) (w3 % 256)]⟩ := by
      simp only [Salt.from_bytes, foldRange_four]
      norm_num [nthW]
    rw [hfb, be_word_assemble w0 hw0, be_word_assemble w1 hw1,
      be_word_assemble w2 hw2, be_word_assemble w3 hw3]

/-- Claim C8 witness: both round-trips at a concrete 16-byte array and the
corresponding salt. -/
theorem salt_roundtrip_witness :
    Salt.to_bytes (Salt.from_bytes
      [1, 2, 3, 4, 5, 6, 7, 8, 9, 10, 11, 12, 13, 14, 15, 16]) =
      [1, 2, 3, 4, 5, 6, 7, 8, 9, 10, 11, 12, 13, 14, 15, 16] ∧
    Salt.from_bytes (Salt.to_bytes ⟨[16909060, 84281096, 151653132, 219025168]⟩) =
      ⟨[16909060, 84281096, 151653132, 219025168]⟩ :=
  salt_roundtrip [1, 2, 3, 4, 5, 6, 7, 8, 9, 10, 11, 12, 13, 14, 15, 16]
    ⟨[16909060, 84281096, 151653132, 219025168]⟩
    (by decide) (by decide) (by decide) (by decide)


/-- `encipherMsgStep` written with pair projections instead of the
destructuring `let`. -/
theorem encipherMsgStep_eq (st : BlowfishContext) (j : Nat) (cd : List Nat) :
    encipherMsgStep st j cd =
      (cd.set (2 * j)
          (blowfish_encipher st (nthW cd (2 * j)) (nthW cd (2 * j + 1))).1).set
        (2 * j + 1)
        (blowfish_encipher st (nthW cd (2 * j)) (nthW cd (2 * j + 1))).2 := by
  simp only [encipherMsgStep]

/-- Three message encipher steps performed by `foldRange` equal the three
written-out block encipherments at `i = 0, 2, 4`. -/
theorem msg_fold_three (st : BlowfishContext) (cd : List Nat) :
    foldRange (encipherMsgStep st) 3 cd =
      (let ab := blowfish_encipher st (nthW cd 0) (nthW cd 1)
       let cd1 := (cd.set 0 ab.1).set 1 ab.2
       let ab2 := blowfish_encipher st (nthW cd1 2) (nthW cd1 3)
       let cd2 := (cd1.set 2 ab2.1).set 3 ab2.2
       let ab3 := blowfish_encipher st (nthW cd2 4) (nthW cd2 5)
       (cd2.set 4 ab3.1).set 5 ab3.2) := by
  rw [foldRange_three]
  simp only [encipherMsgStep_eq]

/-- `foldRange` respects pointwise equality of the step functions. -/
theorem foldRange_ext (f g : Nat → α → α) (n : Nat) (a : α)
    (h : ∀ i x, f i x = g i x) : foldRange f n a = foldRange g n a := by
  have hfg : f = g := funext fun i => funext fun x => h i x
  rw [hfg]

/-- A work factor produced by `exp c` performs `2^c` linear rounds. -/
theorem linear_rounds_of_exp (c : Nat) (wf : WorkFactor)
    (h : WorkFactor.exp c = some wf) : wf.linear_rounds = 2 ^ c := by
  unfold WorkFactor.exp at h
  by_cases hc : 4 ≤ c ∧ c ≤ 31
  · rw [if_pos hc] at h
    cases h
    show (1 <<< c) % W32 = 2 ^ c
    rw [Nat.one_shiftLeft]
    refine Nat.mod_eq_of_lt ?_
    show 2 ^ c < 2 ^ 32
    exact Nat.pow_lt_pow_right (by norm_num) (by omega)
  · rw [if_neg hc] at h
    cases h

/-- Claim C1: on every key of at most 72 bytes with no zero byte, every
salt, and every work factor of cost `c`, `bcrypt` returns `Ok` of exactly
the 23-byte array produced by the specification's pipeline: initial state,
`expandstate_key`, `expandstate_data` with the salt words, `2^c` rounds of
the four-step key schedule, 64 encipherments of the three message blocks,
and the big-endian serialisation truncated to 23 bytes. -/
theorem bcrypt_pipeline (key : List Nat) (salt : Salt) (c : Nat) (wf : WorkFactor)
    (hwf : WorkFactor.exp c = some wf) (hlen : key.length ≤ 72) (hz : 0 ∉ key) :
    bcrypt key salt wf = .ok (bcryptSpecPipeline key salt.be c) := by
  have hc : key.contains 0 = decide (0 ∈ key) := List.elem_eq_mem 0 key
  have hok : bcrypt key salt wf = .ok (bcryptRaw key salt wf) := by
    unfold bcrypt
    simp [KEY_SIZE_MAX, Nat.not_lt.mpr hlen, hc, hz]
  rw [hok]
  have hlin : wf.linear_rounds = 2 ^ c := linear_rounds_of_exp c wf hwf
  have hraw : bcryptRaw key salt wf = bcryptSpecPipeline key salt.be c := by
    unfold bcryptRaw bcryptSpecPipeline
    rw [hlin]
    exact congrArg serializeHash (foldRange_ext _ _ 64 BCRYPT_MESSAGE
      (fun _ cd => msg_fold_three _ cd))
  rw [hraw]

/-- Claim C1 witness: the pipeline equation applied at a concrete one-byte
key, the all-zero salt and the cost-4 work factor. -/
theorem bcrypt_pipeline_witness :
    WorkFactor.exp 4 = some ⟨4⟩ ∧ ([1] : List Nat).length ≤ 72 ∧
    (0 : Nat) ∉ ([1] : List Nat) ∧
    bcrypt [1] ⟨[0, 0, 0, 0]⟩ ⟨4⟩ = .ok (bcryptSpecPipeline [1] [0, 0, 0, 0] 4) :=
  ⟨by decide, by decide, by decide,
    bcrypt_pipeline [1] ⟨[0, 0, 0, 0]⟩ 4 ⟨4⟩ (by decide) (by decide) (by decide)⟩

end BcryptOnly
